import Mathlib

/-!
Verification development for the merge-request fetch engine of
`fetch_data.py` (glab-stats).

Shallow embedding conventions:
* machine integers of the source become `Nat` / `Int`;
* wall-clock timestamps (Python floats / `datetime`) become `ℚ` (seconds);
* Python `None` becomes `Option.none`, exceptions become `Option`/`Except`
  values or explicit "raised" flags;
* the float multiplications `limit * 0.10`, `secs * 1.2` of the source are
  modelled as exact rational arithmetic;
* HTTP traffic is modelled by an injected list (or stream) of responses, one
  per request issued by the code.
-/

namespace GlabStats

/-! ### Quota throttle (`RateLimitThrottle`, fetch_data.py lines 83-146) -/

/-- State of `RateLimitThrottle`: `_limit`, `_remaining`, `_reset_ts`.
All three start as `None` and are only ever set by `update_from_response`,
which returns without touching anything when the remaining-quota header is
absent; hence `remaining = none` exactly when quota was never observed. -/
structure ThrottleState where
  limit : Option Int
  remaining : Option Int
  resetTs : Option ℚ
deriving DecidableEq, Repr

/-- The safety threshold of `wait_if_needed`:
`max(int(self._limit * 0.10) if self._limit else 50, 50)`.
Python truthiness makes both `None` and `0` fall to the inner `50`;
`int(x)` truncates toward zero, so `int(l * 0.10)` is `Int.div l 10`. -/
def waitThreshold (limit : Option Int) : Int :=
  max
    (match limit with
     | some l => if l ≠ 0 then Int.tdiv l 10 else 50
     | none => 50)
    50

/-- `RateLimitThrottle.wait_if_needed`, lines 120-146.  Returns
`some t` when the caller blocks until wall-clock time `t` (the loop
`while time.time() < reset_ts: sleep(...)`), `none` when it returns
without blocking. -/
def wait_if_needed (s : ThrottleState) (now : ℚ) : Option ℚ :=
  match s.remaining, s.resetTs with
  | some rem, some reset =>
    if waitThreshold s.limit < rem then none
    else if reset - now ≤ 0 then none
    else some reset
  | _, _ => none

/-! ### Retry policy (`_is_retryable_error`, `_rate_limit_wait`,
`_checked_get`, fetch_data.py lines 218-282) -/

/-- The response attached to a `requests.HTTPError`, restricted to the
fields the retry policy reads.  Header values are kept as raw strings,
as the source parses them with `int(...)` at use sites. -/
structure ErrResponse where
  status : Nat
  retryAfter : Option String
  remaining : Option String
  resetTs : Option String
deriving DecidableEq, Repr

/-- An exception seen by the retry wrapper: an HTTP error (whose
`.response` may be `None`) or any other exception type. -/
inductive FetchExc where
  | http (resp : Option ErrResponse)
  | other
deriving DecidableEq, Repr

/-- `_is_retryable_error`, lines 218-223: retry iff the exception is an
`HTTPError`, carries a response, and that response is a 403 or a 5xx. -/
def _is_retryable_error : FetchExc → Bool
  | .http (some r) => decide (r.status = 403 ∨ 500 ≤ r.status)
  | _ => false

/-- tenacity's `wait_exponential(multiplier=2, min=2, max=30)` evaluated at
a given attempt number (tenacity 8.x computes
`exp = exp_base ** (attempt_number - 1)`, so the wait after attempt `n` is
`max(max(0, min), min(multiplier * 2 ** (n - 1), max))`: 2, 4, 8, 16, ... s). -/
def waitExponential (attempt : Nat) : ℚ :=
  max (max 0 2) (min ((2 : ℚ) * 2 ^ (attempt - 1)) 30)

/-- Digit-accumulator for `pyInt`. -/
def parseNatAcc : Nat → List Char → Option Nat
  | acc, [] => some acc
  | acc, c :: r =>
    if '0' ≤ c ∧ c ≤ '9' then parseNatAcc (acc * 10 + (c.toNat - 48)) r else none

/-- Python's `int(str)` on canonical numerals: an optional sign followed
by at least one decimal digit; anything else raises `ValueError`
(`none`). -/
def pyInt (s : String) : Option Int :=
  match s.toList with
  | [] => none
  | '-' :: c :: rest => (parseNatAcc 0 (c :: rest)).map fun n => -(n : Int)
  | '+' :: c :: rest => (parseNatAcc 0 (c :: rest)).map fun n => (n : Int)
  | cs => (parseNatAcc 0 cs).map fun n => (n : Int)

/-- The `Retry-After` branch of `_rate_limit_wait` (lines 232-238):
used only when the header is present and truthy; a `ValueError` from
`int(...)` falls through (`none`). -/
def retryAfterWait (r : ErrResponse) : Option ℚ :=
  match r.retryAfter with
  | some s =>
    if s ≠ "" then
      match pyInt s with
      | some n => some (max (n : ℚ) 1)
      | none => none
    else none
  | none => none

/-- The primary-rate-limit branch of `_rate_limit_wait` (lines 239-247):
requires the remaining header to be the exact string "0" and a truthy
reset header; `ValueError` falls through. -/
def resetWait (now : Int) (r : ErrResponse) : Option ℚ :=
  if r.remaining = some "0" then
    match r.resetTs with
    | some s =>
      if s ≠ "" then
        match pyInt s with
        | some ts => some (max ((ts - now : Int) : ℚ) 1)
        | none => none
      else none
    | none => none
  else none

/-- `_rate_limit_wait`, lines 226-249.  `now` is
`int(datetime.now(UTC).timestamp())`, `attempt` the tenacity attempt
number.  Header-derived waits are consulted only for status 403; every
other retryable failure falls through to exponential backoff. -/
def _rate_limit_wait (now : Int) (attempt : Nat) : FetchExc → ℚ
  | .http (some r) =>
    if r.status = 403 then
      match retryAfterWait r with
      | some w => w
      | none =>
        match resetWait now r with
        | some w => w
        | none => waitExponential attempt
    else waitExponential attempt
  | _ => waitExponential attempt

/-- One attempt's outcome for a call guarded by the `@retry` decorator. -/
inductive Attempt where
  | ok (v : Nat)
  | fail (e : FetchExc)
deriving DecidableEq

/-- The attempt loop of the tenacity decorator on `_checked_get`
(lines 267-282): `remaining` is the number of further attempts the
`stop_after_attempt(5)` policy still allows (`5 - attempt`).  A
non-retryable failure propagates at once; exhausting attempts re-raises
the final error (`reraise=True`).  Returns the result together with the
number of the last attempt made. -/
def runRetryAux (outcomes : Nat → Attempt) (attempt remaining : Nat) :
    Except FetchExc Nat × Nat :=
  match outcomes attempt with
  | .ok v => (.ok v, attempt)
  | .fail e =>
    if _is_retryable_error e = false then (.error e, attempt)
    else
      match remaining with
      | 0 => (.error e, attempt)
      | r + 1 => runRetryAux outcomes (attempt + 1) r
termination_by remaining

/-- `_checked_get` under `@retry(stop=stop_after_attempt(stop), reraise=True)`,
driven by the injected per-attempt outcomes, starting at attempt 1. -/
def _checked_get (outcomes : Nat → Attempt) (stop : Nat) : Except FetchExc Nat × Nat :=
  runRetryAux outcomes 1 (stop - 1)

/-! ### Adaptive window pagination (`_compute_window_delta`,
`fetch_merge_requests` with its inner `_shift_window`, lines 380-569) -/

/-- The fields of a listing entry that `fetch_merge_requests` reads:
`mr["iid"]`, the author username, and `mr["created_at"]` (modelled as a
rational timestamp in seconds; `datetime.fromisoformat` round-trips are
the identity under this model). -/
structure RawMR where
  iid : Nat
  username : String
  created_at : ℚ
deriving DecidableEq, Repr

instance : Inhabited RawMR := ⟨⟨0, "", 0⟩⟩

/-- `_compute_window_delta(all_mrs, target_mrs=400)`, lines 380-396.
Returns the window width in seconds (`timedelta` total seconds). -/
def _compute_window_delta (target : ℚ) (all_mrs : List RawMR) : Option ℚ :=
  if all_mrs.length < 2 then none
  else
    let newest := all_mrs.headI.created_at
    let oldest := all_mrs.getLastI.created_at
    let span := newest - oldest
    if span ≤ 0 then none
    else
      let rate := (all_mrs.length : ℚ) / span
      let secs := target / rate
      some (max (secs * 1.2) 3600)

/-- The mutable state of the `fetch_merge_requests` loop: the collected
records, the seen-iid set, the `created_before` / `created_after` window
of `params` (present either both or neither in the source), the page
number, and the consecutive-empty-window counter. -/
structure FetchState where
  all_mrs : List RawMR
  seen : List Nat
  window : Option (ℚ × ℚ)
  page : Nat
  emptyCount : Nat
deriving DecidableEq, Repr

/-- State at entry of the loop: `all_mrs = []`, `seen_iids = set()`,
no date filters, `page = 1`, `empty_window_count = 0`. -/
def initFetchState : FetchState :=
  { all_mrs := [], seen := [], window := none, page := 1, emptyCount := 0 }

/-- `max_empty_windows`, line 431. -/
def maxEmptyWindows : Nat := 5

/-- The inner `_shift_window` closure, lines 437-466.  Returns the
updated state when a new window was set, `none` when pagination cannot
continue.  Only `window` and `page` change on success. -/
def _shift_window (s : FetchState) : Option FetchState :=
  if s.all_mrs = [] then none
  else if maxEmptyWindows ≤ s.emptyCount then none
  else
    match _compute_window_delta 400 s.all_mrs with
    | none => none
    | some delta =>
      let before_dt :=
        match s.window with
        | some (_, after_dt) => after_dt
        | none => s.all_mrs.getLastI.created_at
      some { s with window := some (before_dt, before_dt - delta), page := 1 }

/-- One response of the listing endpoint as seen by `fetch_merge_requests`:
either an `requests.HTTPError` from `_simple_get`, or a JSON page plus the
`x-next-page` header (absent or empty header modelled as `none`). -/
inductive ListResponse where
  | error
  | page (data : List RawMR) (nextPage : Option Nat)
deriving DecidableEq

/-- The `for mr in data` body, lines 513-549: stop at the limit, skip
iids already seen, record bot authors as seen without appending, and
append genuinely new non-bot records while tracking `new_in_page`. -/
def consumePage (limit : Nat) (bots : List String) :
    FetchState → Bool → List RawMR → FetchState × Bool
  | s, flag, [] => (s, flag)
  | s, flag, mr :: rest =>
    if limit ≤ s.all_mrs.length then (s, flag)
    else if mr.iid ∈ s.seen then consumePage limit bots s flag rest
    else if mr.username ∈ bots then
      consumePage limit bots { s with seen := mr.iid :: s.seen } flag rest
    else
      consumePage limit bots
        { s with seen := mr.iid :: s.seen, all_mrs := s.all_mrs ++ [mr] } true rest

/-- The `while len(all_mrs) < limit` loop of `fetch_merge_requests`,
lines 468-569, driven by one injected response per request; the run ends
when the response stream is exhausted.  The source function returns
`all_mrs`; the model returns the whole final state, of which `all_mrs`
is the returned value. -/
def fetch_merge_requests (limit : Nat) (bots : List String) :
    FetchState → List ListResponse → FetchState
  | s, [] => s
  | s, ListResponse.error :: rest =>
    if limit ≤ s.all_mrs.length then s
    else
      match _shift_window s with
      | some s' => fetch_merge_requests limit bots s' rest
      | none => s
  | s, ListResponse.page data np :: rest =>
    if limit ≤ s.all_mrs.length then s
    else if data = [] then
      match _shift_window { s with emptyCount := s.emptyCount + 1 } with
      | some s2 => fetch_merge_requests limit bots s2 rest
      | none => { s with emptyCount := s.emptyCount + 1 }
    else
      match consumePage limit bots { s with emptyCount := 0 } false data with
      | (s2, newInPage) =>
        if newInPage then
          match np with
          | some p => fetch_merge_requests limit bots { s2 with page := p } rest
          | none =>
            match _shift_window s2 with
            | some s3 => fetch_merge_requests limit bots s3 rest
            | none => s2
        else
          match _shift_window s2 with
          | some s3 => fetch_merge_requests limit bots s3 rest
          | none => s2

/-! ### Python-style string matching for the co-author classifiers
(fetch_data.py lines 31-80 and 156-210).  The regexes of the source are
embedded as explicit character-list matchers: every pattern used there is
an alternation of literal words separated by `\s+`, optionally followed
by `:\s*(.+)` for the trailer patterns, so leftmost-search semantics are
reproduced directly. -/

/-- ASCII case folding (`re.IGNORECASE` on the ASCII inputs involved). -/
def lowNat (c : Char) : Nat :=
  if 65 ≤ c.toNat ∧ c.toNat ≤ 90 then c.toNat + 32 else c.toNat

/-- Case-insensitive character equality. -/
def ciEq (a b : Char) : Bool := lowNat a == lowNat b

/-- Python's `\s` class (and the default `str.strip()` set) over ASCII. -/
def isPySpace (c : Char) : Bool :=
  c == ' ' || c == '\t' || c == '\n' || c == '\r' || c == '\x0b' || c == '\x0c'

/-- `str.strip()`. -/
def pyStrip (l : List Char) : List Char :=
  ((l.dropWhile isPySpace).reverse.dropWhile isPySpace).reverse

/-- `str.split("\n")` (keeps empty segments). -/
def pySplitNL : List Char → List (List Char)
  | [] => [[]]
  | c :: rest =>
    match pySplitNL rest with
    | [] => [[c]]
    | h :: t => if c = '\n' then [] :: h :: t else (c :: h) :: t

/-- Match a literal (case-insensitively) at the head, returning the rest. -/
def matchLit : List Char → List Char → Option (List Char)
  | [], cs => some cs
  | _ :: _, [] => none
  | p :: ps, c :: cs => if ciEq p c then matchLit ps cs else none

/-- Match a sequence of literal chunks separated by `\s+` at the head.
The chunks never start with whitespace, so greedy `\s+` needs no
backtracking. -/
def matchChunks : List (List Char) → List Char → Option (List Char)
  | [], cs => some cs
  | [w], cs => matchLit w cs
  | w :: ws, cs =>
    match matchLit w cs with
    | none => none
    | some r =>
      match r with
      | c :: r' => if isPySpace c then matchChunks ws (r'.dropWhile isPySpace) else none
      | [] => none

/-- `re.search` of a chunk pattern: try each start position left to right. -/
def searchChunks (ws : List (List Char)) : List Char → Option (List Char)
  | [] => matchChunks ws []
  | c :: rest =>
    match matchChunks ws (c :: rest) with
    | some r => some r
    | none => searchChunks ws rest

/-- Convert a pattern written as whitespace-separated words. -/
def chunksOf (ws : List String) : List (List Char) := ws.map String.toList

/-- `AI_PATTERNS` (lines 34-62), each `\s+` shown as a word break. -/
def aiPatterns : List (List (List Char)) :=
  [chunksOf ["ai", "assistant"], chunksOf ["ai", "code"],
   chunksOf ["amazon", "codewhisperer"], chunksOf ["anthropic"],
   chunksOf ["artificial", "intelligence"], chunksOf ["assistant"],
   chunksOf ["bard"], chunksOf ["chatgpt"], chunksOf ["claude"],
   chunksOf ["codeium"], chunksOf ["codewhisperer"], chunksOf ["copilot"],
   chunksOf ["cursor"], chunksOf ["gemini"], chunksOf ["github", "copilot"],
   chunksOf ["gpt-"], chunksOf ["jetbrains", "ai"],
   chunksOf ["large", "language", "model"], chunksOf ["llm"],
   chunksOf ["machine", "learning"], chunksOf ["openai"], chunksOf ["replit"],
   chunksOf ["sourcegraph", "cody"], chunksOf ["tabnine"], chunksOf ["v0"],
   chunksOf ["vercel"], chunksOf ["windsurf"]]

/-- `AI_REGEX.search(value)` as a Boolean: some alternative matches
somewhere in the value. -/
def aiHit (value : List Char) : Bool :=
  aiPatterns.any fun p => (searchChunks p value).isSome

/-- `CO_AUTHOR_PATTERNS` (lines 65-77), the trailer prefixes of
`<prefix>:\s*(.+)`. -/
def coAuthorTrailerPatterns : List (List (List Char)) :=
  [chunksOf ["co-authored-by:"], chunksOf ["generated-by:"],
   chunksOf ["assisted-by:"], chunksOf ["ai-agent:"],
   chunksOf ["generated", "with:"], chunksOf ["created", "with:"],
   chunksOf ["built", "with:"], chunksOf ["powered", "by:"]]

/-- `re.search` for a trailer pattern `<chunks>\s*(.+)`, returning
group 1.  When the remainder after the prefix is empty, `(.+)` fails and
the search resumes one position later; when the remainder is entirely
whitespace, greedy `\s*` backtracks one character so group 1 is that last
whitespace character. -/
def searchTrailerGroup (ws : List (List Char)) : List Char → Option (List Char)
  | [] => none
  | c :: rest =>
    match matchChunks ws (c :: rest) with
    | some [] => searchTrailerGroup ws rest
    | some (g :: gs) =>
      let t := (g :: gs).dropWhile isPySpace
      some (if t.isEmpty then [(g :: gs).getLast (List.cons_ne_nil g gs)] else t)
    | none => searchTrailerGroup ws rest

/-- Does `\s+signed-off-by\s*:` (the `re.split` pattern of lines 172/195)
match at the head of the input? -/
def matchSignedOffAt : List Char → Bool
  | [] => false
  | c :: r =>
    if isPySpace c then
      match matchLit "signed-off-by".toList (r.dropWhile isPySpace) with
      | some r3 =>
        match r3.dropWhile isPySpace with
        | ':' :: _ => true
        | _ => false
      | none => false
    else false

/-- The segment before the first `\s+signed-off-by\s*:` match
(`re.split(...)[0]`; the whole input when the pattern never matches). -/
def signedOffHead : List Char → List Char
  | [] => []
  | c :: rest => if matchSignedOffAt (c :: rest) then [] else c :: signedOffHead rest

/-- Lines 171-172 / 194-195: drop an appended Signed-off-by trailer. -/
def stripSignedOff (value : List Char) : List Char :=
  if (searchChunks [("signed-off-by".toList)] value).isSome then
    pyStrip (signedOffHead value)
  else value

/-- `detect_ai_coauthor`, lines 156-175. -/
def detect_ai_coauthor (description : String) : Bool :=
  if description = "" then false
  else
    (pySplitNL description.toList).any fun rawLine =>
      let line := pyStrip rawLine
      coAuthorTrailerPatterns.any fun pat =>
        match searchTrailerGroup pat line with
        | some g => aiHit (stripSignedOff (pyStrip g))
        | none => false

/-- `CO_AUTHOR_NAME_EMAIL_RE`'s tail `\s*<([^>]+)>$`: whitespace, `<`, a
nonempty run without `>`, a closing `>`, end of string; returns the email
group. -/
def parseTailAngle (cs : List Char) : Option (List Char) :=
  match cs.dropWhile isPySpace with
  | '<' :: rest =>
    let e := rest.takeWhile (fun c => c != '>')
    if e.isEmpty then none
    else
      match rest.drop e.length with
      | ['>'] => some e
      | _ => none
  | _ => none

/-- The lazy group of `^(.+?)\s*<([^>]+)>$`: grow the name one character
at a time until the tail matches. -/
def parseNameEmailGo (acc : List Char) : List Char → Option (List Char × List Char)
  | [] => none
  | c :: rest =>
    match parseTailAngle rest with
    | some e => some (acc ++ [c], e)
    | none => parseNameEmailGo (acc ++ [c]) rest

/-- `CO_AUTHOR_NAME_EMAIL_RE.match(value)`, line 80. -/
def parseNameEmail (cs : List Char) : Option (List Char × List Char) :=
  parseNameEmailGo [] cs

/-- One human co-author entry (`{"name": ..., "email": ...}`). -/
structure Coauthor where
  name : String
  email : String
deriving DecidableEq, Repr

/-- `extract_human_coauthors`, lines 178-210. -/
def extract_human_coauthors (description : String) : List Coauthor :=
  if description = "" then []
  else
    (pySplitNL description.toList).filterMap fun rawLine =>
      let line := pyStrip rawLine
      match searchTrailerGroup (chunksOf ["co-authored-by:"]) line with
      | none => none
      | some g =>
        let value := stripSignedOff (pyStrip g)
        if aiHit value then none
        else
          match parseNameEmail value with
          | some (n, e) => some ⟨String.mk (pyStrip n), String.mk (pyStrip e)⟩
          | none => some ⟨String.mk value, ""⟩

/-! ### Detail enrichment and per-record failure containment
(`_fetch_mr_details` lines 693-710, `extract_jira_key` lines 672-675,
and the orchestrator loop of `main`, lines 997-1051) -/

/-- `JIRA_KEY_RE` search (`([A-Z][A-Z0-9]+-\d+)`): at each start
position, an uppercase letter, a maximal nonempty run of `[A-Z0-9]`, a
dash, a nonempty digit run.  The character classes exclude `-`, so the
greedy runs need no backtracking. -/
def jiraScan : List Char → Option (List Char)
  | [] => none
  | c :: rest =>
    if 'A' ≤ c ∧ c ≤ 'Z' then
      let run := rest.takeWhile fun d => ('A' ≤ d ∧ d ≤ 'Z') ∨ ('0' ≤ d ∧ d ≤ '9')
      if run.isEmpty then jiraScan rest
      else
        match rest.drop run.length with
        | '-' :: rest3 =>
          let ds := rest3.takeWhile fun d => '0' ≤ d ∧ d ≤ '9'
          if ds.isEmpty then jiraScan rest
          else some (c :: run ++ '-' :: ds)
        | _ => jiraScan rest
    else jiraScan rest

/-- `extract_jira_key`, lines 672-675. -/
def extract_jira_key (title : String) : Option String :=
  (jiraScan title.toList).map String.mk

/-- A record of `main`'s `mrs` list as mutated by the detail phase: the
listing fields that matter here plus the six detail keys, each `none`
while the dictionary key is absent. -/
structure MRRecord where
  iid : Nat
  title : String
  additions : Option Nat
  deletions : Option Nat
  commenters : Option (List String)
  approvers : Option (List String)
  jira_key : Option (Option String)
  jira_priority : Option (Option String)
deriving DecidableEq, Repr

/-- A listing record before enrichment: no detail key present. -/
def unenriched (mr : MRRecord) : Prop :=
  mr.additions = none ∧ mr.deletions = none ∧ mr.commenters = none ∧
  mr.approvers = none ∧ mr.jira_key = none ∧ mr.jira_priority = none

/-- The injected behaviour of the network calls made by
`_fetch_mr_details` for one record: `none` means that call raises (after
its own retries); the Jira lookup never raises (`fetch_jira_priority`
swallows request errors). -/
structure DetailPlan where
  diff : Option (Nat × Nat)
  comments : Option (List String)
  approvals : Option (List String)
  jiraPriority : Option String
deriving DecidableEq, Repr

/-- `_fetch_mr_details`, lines 693-710, run against a plan: the record
is mutated key by key in source order until a call raises; the second
component reports whether the task raised. -/
def _fetch_mr_details (jiraSession : Bool) (mr : MRRecord) (p : DetailPlan) :
    MRRecord × Bool :=
  match p.diff with
  | none => (mr, true)
  | some (a, d) =>
    let mr1 := { mr with additions := some a, deletions := some d }
    match p.comments with
    | none => (mr1, true)
    | some cs =>
      let mr2 := { mr1 with commenters := some cs }
      match p.approvals with
      | none => (mr2, true)
      | some apps =>
        let mr3 := { mr2 with approvers := some apps }
        let jk := extract_jira_key mr3.title
        let mr4 := { mr3 with jira_key := some jk }
        let jp := if jk.isSome ∧ jiraSession then p.jiraPriority else none
        ({ mr4 with jira_priority := some jp }, false)

/-- The `except` branch of `main` (lines 1020-1028): six `setdefault`
calls, filling only the keys the task had not set. -/
def detailFailureDefaults (mr : MRRecord) : MRRecord :=
  { mr with
    additions := some (mr.additions.getD 0),
    deletions := some (mr.deletions.getD 0),
    commenters := some (mr.commenters.getD []),
    approvers := some (mr.approvers.getD []),
    jira_key := some (mr.jira_key.getD none),
    jira_priority := some (mr.jira_priority.getD none) }

/-- One repository entry of the output document. -/
structure RepoResult where
  name : String
  merge_requests : List MRRecord
deriving DecidableEq, Repr

/-- The detail phase of `main` for one repository (lines 997-1051): every
record gets its own task; a raising task only triggers the `setdefault`
defaults for that record; the repository entry is built from the full
record list.  Tasks complete in any order but each owns its record, so
the in-order fold is faithful. -/
def processRepository (jiraSession : Bool) (name : String)
    (mrs : List MRRecord) (plans : List DetailPlan) : RepoResult :=
  { name := name,
    merge_requests :=
      (mrs.zip plans).map fun pr =>
        let r := _fetch_mr_details jiraSession pr.1 pr.2
        if r.2 then detailFailureDefaults r.1 else r.1 }

/-- The top-level repository loop of `main`: each finished repository is
appended to `result["repositories"]` (and the accumulated document is
flushed to disk, an I/O effect outside the embedding). -/
def runRepositories (jiraSession : Bool)
    (repos : List (String × List MRRecord × List DetailPlan)) : List RepoResult :=
  repos.map fun r => processRepository jiraSession r.1 r.2.1 r.2.2

/-! ### Helper lemmas -/

/-- A window width estimate, when one exists, is at least one hour. -/
theorem compute_window_delta_ge_hour (target : ℚ) (mrs : List RawMR) (d : ℚ)
    (h : _compute_window_delta target mrs = some d) : 3600 ≤ d := by
  simp only [_compute_window_delta] at h
  split_ifs at h
  simp only [Option.some.injEq] at h
  subst h
  exact le_max_right _ _

/-- The three reasons `_shift_window` can refuse to shift, as the spec
lists them. -/
def cannotShiftWindow (s : FetchState) : Prop :=
  s.all_mrs = [] ∨ maxEmptyWindows ≤ s.emptyCount ∨
    _compute_window_delta 400 s.all_mrs = none

instance (s : FetchState) : Decidable (cannotShiftWindow s) := by
  unfold cannotShiftWindow; infer_instance

/-- `_shift_window` fails exactly on the three listed conditions. -/
theorem shift_window_none_iff (s : FetchState) :
    _shift_window s = none ↔ cannotShiftWindow s := by
  unfold _shift_window cannotShiftWindow
  split_ifs with h1 h2
  · simp [h1]
  · simp [h1, h2]
  · cases hd : _compute_window_delta 400 s.all_mrs <;> simp [h1, h2, hd]

/-! ### Claim theorems -/

/-- Claim C2: on every successful window shift while a window is already
active, the new window's upper bound (`created_before`) is the previous
window's lower bound (`created_after`), and the lower bound strictly
decreases. -/
theorem window_shift_slides_backward (s s' : FetchState) (b a : ℚ)
    (hw : s.window = some (b, a)) (hs : _shift_window s = some s') :
    ∃ a', s'.window = some (a, a') ∧ a' < a := by
  unfold _shift_window at hs
  split_ifs at hs
  rcases hd : _compute_window_delta 400 s.all_mrs with _ | d
  · rw [hd] at hs; exact absurd hs (by simp)
  · rw [hd, hw] at hs
    simp only [Option.some.injEq] at hs
    refine ⟨a - d, ?_, ?_⟩
    · rw [← hs]
    · have := compute_window_delta_ge_hour 400 s.all_mrs d hd
      linarith

/-- Witness for C2 at a concrete state with an active window. -/
theorem window_shift_slides_backward_witness :
    ∃ s' a',
      _shift_window ⟨[⟨1, "a", 1000⟩, ⟨2, "b", 0⟩], [1, 2], some (5000, 2000), 3, 0⟩ =
        some s' ∧ s'.window = some (2000, a') ∧ a' < 2000 := by
  have hd : _compute_window_delta 400 [⟨1, "a", 1000⟩, ⟨2, "b", 0⟩] = some 240000 := by
    simp only [_compute_window_delta, List.headI, List.getLastI]
    norm_num
  have hs :
      _shift_window ⟨[⟨1, "a", 1000⟩, ⟨2, "b", 0⟩], [1, 2], some (5000, 2000), 3, 0⟩ =
      some ⟨[⟨1, "a", 1000⟩, ⟨2, "b", 0⟩], [1, 2], some (2000, -238000), 1, 0⟩ := by
    simp only [_shift_window, maxEmptyWindows]
    rw [if_neg (by simp), if_neg (by norm_num)]
    rw [hd]
    norm_num
  obtain ⟨a', h1, h2⟩ := window_shift_slides_backward _ _ 5000 2000 rfl hs
  exact ⟨_, a', hs, h1, h2⟩

/-- Claim C3: when the window cannot be shifted (nothing collected, no
density estimate, or the empty-window cap reached), a listing-page HTTP
error or an exhausted (empty) window makes `fetch_merge_requests` stop
and return the records collected so far — the model is a total function
returning `all_mrs`, never an exception. -/
theorem fetch_returns_partial_on_unshiftable (limit : Nat) (bots : List String)
    (s : FetchState) (rest : List ListResponse) (np : Option Nat)
    (hlt : s.all_mrs.length < limit) :
    (cannotShiftWindow s →
      (fetch_merge_requests limit bots s (ListResponse.error :: rest)).all_mrs =
        s.all_mrs) ∧
    (cannotShiftWindow { s with emptyCount := s.emptyCount + 1 } →
      (fetch_merge_requests limit bots s (ListResponse.page [] np :: rest)).all_mrs =
        s.all_mrs) := by
  constructor
  · intro h
    have hn : _shift_window s = none := (shift_window_none_iff s).mpr h
    simp [fetch_merge_requests, Nat.not_le.mpr hlt, hn]
  · intro h
    have hn : _shift_window { s with emptyCount := s.emptyCount + 1 } = none :=
      (shift_window_none_iff _).mpr h
    simp [fetch_merge_requests, Nat.not_le.mpr hlt, hn]

/-- Witness for C3: the initial state (nothing collected yet) with a
failing first page. -/
theorem fetch_returns_partial_on_unshiftable_witness :
    cannotShiftWindow initFetchState ∧
    (fetch_merge_requests 20 [] initFetchState [ListResponse.error]).all_mrs = [] ∧
    (fetch_merge_requests 20 [] initFetchState [ListResponse.page [] none]).all_mrs
      = [] := by
  have h := fetch_returns_partial_on_unshiftable 20 [] initFetchState [] none
    (by decide)
  exact ⟨by decide, h.1 (by decide), h.2 (by decide)⟩

/-- Claim C4: the throttle threshold is `max(limit / 10, 50)` (floor of
50 when the limit is unknown); `wait_if_needed` blocks until `reset_at`
exactly when quota state is present with `remaining ≤ threshold` and
`reset_at` in the future; with no quota observation ever
(`remaining = none`) it is a no-op. -/
theorem wait_if_needed_spec :
    (∀ l : Int, waitThreshold (some l) = max (Int.tdiv l 10) 50) ∧
    waitThreshold none = 50 ∧
    (∀ (s : ThrottleState) (now t : ℚ),
      wait_if_needed s now = some t ↔
        ∃ rem reset, s.remaining = some rem ∧ s.resetTs = some reset ∧
          rem ≤ waitThreshold s.limit ∧ now < reset ∧ t = reset) ∧
    (∀ (s : ThrottleState) (now : ℚ),
      s.remaining = none → wait_if_needed s now = none) := by
  refine ⟨?_, rfl, ?_, ?_⟩
  · intro l
    unfold waitThreshold
    by_cases h : l = 0
    · subst h; norm_num
    · simp [h]
  · intro s now t
    rcases s with ⟨lim, rem, reset⟩
    rcases rem with _ | rem <;> rcases reset with _ | reset
    · simp [wait_if_needed]
    · simp [wait_if_needed]
    · simp [wait_if_needed]
    · constructor
      · intro h
        simp only [wait_if_needed] at h
        split_ifs at h with h1 h2
        exact ⟨rem, reset, rfl, rfl, not_lt.mp h1, by linarith [not_le.mp h2],
          ((Option.some.injEq _ _).mp h).symm⟩
      · rintro ⟨rem', reset', hre, hrs, h1, h2, rfl⟩
        cases hre
        cases hrs
        simp only [wait_if_needed]
        rw [if_neg (not_lt.mpr h1), if_neg (not_le.mpr (by linarith))]
  · intro s now h
    simp [wait_if_needed, h]

/-- Witness for C4's no-op part at the never-observed state. -/
theorem wait_if_needed_spec_witness :
    wait_if_needed ⟨none, none, none⟩ 0 = none :=
  wait_if_needed_spec.2.2.2 ⟨none, none, none⟩ 0 rfl

/-- Claim C8: with at least two records and a positive span the window
estimate is exactly `max(1.2 * target / rate, 3600)` seconds with
`rate = count / span`; otherwise there is no estimate. -/
theorem compute_window_delta_spec (target : ℚ) (mrs : List RawMR) :
    (mrs.length < 2 → _compute_window_delta target mrs = none) ∧
    (2 ≤ mrs.length → mrs.headI.created_at - mrs.getLastI.created_at ≤ 0 →
      _compute_window_delta target mrs = none) ∧
    (2 ≤ mrs.length → 0 < mrs.headI.created_at - mrs.getLastI.created_at →
      _compute_window_delta target mrs =
        some (max (1.2 * target /
          ((mrs.length : ℚ) / (mrs.headI.created_at - mrs.getLastI.created_at)))
          3600)) := by
  refine ⟨?_, ?_, ?_⟩
  · intro h; simp [_compute_window_delta, h]
  · intro h2 hspan
    simp [_compute_window_delta, Nat.lt_irrefl, hspan, if_neg (Nat.not_lt.mpr h2)]
  · intro h2 hspan
    rw [_compute_window_delta, if_neg (Nat.not_lt.mpr h2),
      if_neg (not_le.mpr hspan)]
    have he : target / ((mrs.length : ℚ) /
          (mrs.headI.created_at - mrs.getLastI.created_at)) * 1.2 =
        1.2 * target /
          ((mrs.length : ℚ) / (mrs.headI.created_at - mrs.getLastI.created_at)) := by
      ring
    show some (max (target / ((mrs.length : ℚ) /
      (mrs.headI.created_at - mrs.getLastI.created_at)) * 1.2) 3600) = _
    rw [he]

/-- Witness for C8 at two records spanning 1000 seconds. -/
theorem compute_window_delta_spec_witness :
    _compute_window_delta 400 [⟨1, "a", 1000⟩, ⟨2, "b", 0⟩] = some 240000 := by
  have h := (compute_window_delta_spec 400 [⟨1, "a", 1000⟩, ⟨2, "b", 0⟩]).2.2
    (by decide) (by norm_num [List.headI, List.getLastI])
  rw [h]
  norm_num [List.headI, List.getLastI]

/-- The spec's retryability condition, stated in its own words for
comparison with the code: a server error (≥ 500) or a 403-class
rate-limit rejection carrying quota signals (some rate-limit header). -/
def specRetryableWithQuotaSignals : FetchExc → Bool
  | .http (some r) =>
    decide (500 ≤ r.status ∨
      (r.status = 403 ∧
        (r.retryAfter ≠ none ∨ r.remaining ≠ none ∨ r.resetTs ≠ none)))
  | _ => false

/-- Counterexample to C5 as stated: a bare 403 with no quota signal at
all is still classified retryable by `_is_retryable_error`, though the
spec's condition rejects it. -/
theorem retryable_bare_403_counterexample :
    _is_retryable_error (.http (some ⟨403, none, none, none⟩)) = true ∧
    specRetryableWithQuotaSignals (.http (some ⟨403, none, none, none⟩)) = false := by
  exact ⟨rfl, rfl⟩

/-- Amended C5: a failure is retryable exactly when it is an HTTP error
carrying a response whose status is 403 (with or without quota signals)
or ≥ 500; every other failure is propagated immediately, on the first
attempt, without retry. -/
theorem retryable_iff_403_or_5xx :
    ∀ e : FetchExc,
      (_is_retryable_error e = true ↔
        ∃ r, e = .http (some r) ∧ (r.status = 403 ∨ 500 ≤ r.status)) ∧
      (_is_retryable_error e = false →
        ∀ outcomes : Nat → Attempt, outcomes 1 = .fail e →
          _checked_get outcomes 5 = (.error e, 1)) := by
  intro e
  constructor
  · rcases e with (_ | r) | _
    · simp [_is_retryable_error]
    · simp [_is_retryable_error]
    · simp [_is_retryable_error]
  · intro hnr outcomes h1
    simp [_checked_get, runRetryAux, h1, hnr]

/-- Witness for the amended C5 at a non-HTTP failure. -/
theorem retryable_iff_403_or_5xx_witness :
    _checked_get (fun _ => Attempt.fail FetchExc.other) 5 =
      (Except.error FetchExc.other, 1) :=
  (retryable_iff_403_or_5xx FetchExc.other).2 rfl _ rfl

/-- Counterexample to C6 as stated: a retryable 500 failure whose
response carries `Retry-After: 7` still waits the exponential-backoff
time (2 s after attempt 1), not the header value — header-derived waits
are computed only for status 403. -/
theorem rate_limit_wait_500_counterexample :
    _rate_limit_wait 0 1 (.http (some ⟨500, some "7", none, none⟩)) = 2 ∧
    (2 : ℚ) ≠ 7 := by
  constructor
  · have h : _rate_limit_wait 0 1 (.http (some ⟨500, some "7", none, none⟩)) =
        waitExponential 1 := rfl
    rw [h]
    norm_num [waitExponential]
  · norm_num

set_option maxHeartbeats 1600000 in
/-- Amended C6: for a 403 the wait precedence is the parsed Retry-After
header, else the reported reset time minus now when the remaining-quota
header is exactly "0", else exponential backoff; any other retryable
failure (a 5xx) always waits the exponential backoff
`2 * 2 ^ (attempt - 1)` — doubling each attempt and clamped to
[2, 30] seconds. -/
theorem rate_limit_wait_precedence :
    ∀ (now : Int) (attempt : Nat) (r : ErrResponse),
      (r.status ≠ 403 →
        _rate_limit_wait now attempt (.http (some r)) = waitExponential attempt) ∧
      (r.status = 403 → ∀ a n, r.retryAfter = some a → a ≠ "" → pyInt a = some n →
        _rate_limit_wait now attempt (.http (some r)) = max (n : ℚ) 1) ∧
      (r.status = 403 → retryAfterWait r = none →
        ∀ a ts, r.remaining = some "0" → r.resetTs = some a → a ≠ "" →
          pyInt a = some ts →
          _rate_limit_wait now attempt (.http (some r)) =
            max ((ts - now : Int) : ℚ) 1) ∧
      (r.status = 403 → retryAfterWait r = none → resetWait now r = none →
        _rate_limit_wait now attempt (.http (some r)) = waitExponential attempt) ∧
      (∀ k, waitExponential k = max 2 (min ((2 : ℚ) * 2 ^ (k - 1)) 30)) := by
  intro now attempt r
  refine ⟨?_, ?_, ?_, ?_, ?_⟩
  · intro hs
    simp [_rate_limit_wait, hs]
  · intro hs a n ha hne hn
    have hra : retryAfterWait r = some (max (n : ℚ) 1) := by
      simp [retryAfterWait, ha, hne, hn]
    simp [_rate_limit_wait, hs, hra]
  · intro hs hra a ts hrem hreset hne hts
    have hrw : resetWait now r = some (max ((ts - now : Int) : ℚ) 1) := by
      simp [resetWait, hrem, hreset, hne, hts]
    simp [_rate_limit_wait, hs, hra, hrw]
  · intro hs hra hrw
    simp [_rate_limit_wait, hs, hra, hrw]
  · intro k
    unfold waitExponential
    norm_num

/-- Witness for the amended C6: a 403 carrying `Retry-After: 7`. -/
theorem rate_limit_wait_precedence_witness :
    _rate_limit_wait 0 1 (.http (some ⟨403, some "7", none, none⟩)) =
      max (7 : ℚ) 1 :=
  (rate_limit_wait_precedence 0 1 ⟨403, some "7", none, none⟩).2.1 rfl "7" 7 rfl
    (by decide) rfl

/-- Claim C7: against an endpoint that fails with a retryable error
(e.g. a 500) on every attempt, exactly 5 attempts are made and the final
error is then re-raised to the caller. -/
theorem retry_exhausts_five_attempts :
    ∀ (outcomes : Nat → Attempt) (r : ErrResponse), 500 ≤ r.status →
      (∀ n, outcomes n = .fail (.http (some r))) →
      _checked_get outcomes 5 = (.error (.http (some r)), 5) := by
  intro outcomes r h5 hall
  have hr : _is_retryable_error (.http (some r)) = true := by
    simp [_is_retryable_error]
    omega
  simp [_checked_get, runRetryAux, hall, hr]

/-- Witness for C7: every attempt answers HTTP 500. -/
theorem retry_exhausts_five_attempts_witness :
    _checked_get (fun _ => Attempt.fail (.http (some ⟨500, none, none, none⟩))) 5 =
      (Except.error (FetchExc.http (some ⟨500, none, none, none⟩)), 5) :=
  retry_exhausts_five_attempts _ ⟨500, none, none, none⟩ (by norm_num) fun _ => rfl

/-- Claim C10: the Copilot co-author trailer is detected as AI and
yields no human co-author; the Jane Doe trailer is not AI and yields
exactly her name and email; a non-AI trailer that is not of the
`Name <email>` shape yields the raw value with an empty email. -/
theorem coauthor_classification :
    detect_ai_coauthor "Co-Authored-By: Copilot <noreply@github.com>" = true ∧
    extract_human_coauthors "Co-Authored-By: Copilot <noreply@github.com>" = [] ∧
    detect_ai_coauthor "Co-Authored-By: Jane Doe <jane@example.com>" = false ∧
    extract_human_coauthors "Co-Authored-By: Jane Doe <jane@example.com>" =
      [⟨"Jane Doe", "jane@example.com"⟩] ∧
    extract_human_coauthors "Co-Authored-By: Jane Doe" = [⟨"Jane Doe", ""⟩] := by
  decide

/-- `_shift_window` only moves the window cursor: the collected records
and the seen-iid set are untouched. -/
theorem shift_window_preserves_records (s s' : FetchState)
    (h : _shift_window s = some s') :
    s'.all_mrs = s.all_mrs ∧ s'.seen = s.seen := by
  unfold _shift_window at h
  split_ifs at h
  rcases hd : _compute_window_delta 400 s.all_mrs with _ | d
  · rw [hd] at h; exact absurd h (by simp)
  · rw [hd] at h
    simp only [Option.some.injEq] at h
    subst h
    exact ⟨rfl, rfl⟩

/-- The loop invariant behind deduplication: collected iids are pairwise
distinct, and every collected iid is recorded in the seen set. -/
def SeenInv (s : FetchState) : Prop :=
  (s.all_mrs.map RawMR.iid).Nodup ∧ ∀ mr ∈ s.all_mrs, mr.iid ∈ s.seen

theorem nodup_append_singleton {α : Type} (l : List α) (a : α) :
    (l ++ [a]).Nodup ↔ l.Nodup ∧ a ∉ l := by
  simp [List.nodup_append]

theorem seen_inv_fields (s s' : FetchState) (ha : s'.all_mrs = s.all_mrs)
    (hn : s'.seen = s.seen) : SeenInv s → SeenInv s' := by
  intro h
  unfold SeenInv at h ⊢
  rw [ha, hn]
  exact h

/-- The page-consumption loop preserves the invariant and only grows the
seen set (the membership check happens before the append). -/
theorem consumePage_preserves (limit : Nat) (bots : List String) :
    ∀ (data : List RawMR) (s : FetchState) (flag : Bool),
      (SeenInv s → SeenInv (consumePage limit bots s flag data).1) ∧
      s.seen ⊆ (consumePage limit bots s flag data).1.seen := by
  intro data
  induction data with
  | nil =>
    intro s flag
    exact ⟨fun h => h, fun x hx => hx⟩
  | cons mr rest ih =>
    intro s flag
    simp only [consumePage]
    split_ifs with h1 h2 h3
    · exact ⟨fun h => h, fun x hx => hx⟩
    · exact ih s flag
    · refine ⟨fun h => (ih _ flag).1 ⟨h.1, fun x hx =>
        List.mem_cons_of_mem _ (h.2 x hx)⟩, ?_⟩
      exact fun x hx => (ih _ flag).2 (List.mem_cons_of_mem _ hx)
    · refine ⟨fun h => ?_, fun x hx => (ih _ true).2 (List.mem_cons_of_mem _ hx)⟩
      refine (ih _ true).1 ⟨?_, ?_⟩
      · simp only [List.map_append, List.map_cons, List.map_nil]
        refine (nodup_append_singleton _ _).mpr ⟨h.1, ?_⟩
        intro hmem
        rcases List.mem_map.mp hmem with ⟨x, hxmem, hxe⟩
        exact h2 (hxe ▸ h.2 x hxmem)
      · intro x hx
        rcases List.mem_append.mp hx with hx | hx
        · exact List.mem_cons_of_mem _ (h.2 x hx)
        · rw [List.mem_singleton.mp hx]
          exact List.mem_cons_self _ _

/-- The whole fetch loop preserves the invariant and only grows the seen
set, whatever responses are injected. -/
theorem fetch_preserves_inv (limit : Nat) (bots : List String) :
    ∀ (rs : List ListResponse) (s : FetchState),
      (SeenInv s → SeenInv (fetch_merge_requests limit bots s rs)) ∧
      s.seen ⊆ (fetch_merge_requests limit bots s rs).seen := by
  intro rs
  induction rs with
  | nil => intro s; exact ⟨fun h => h, fun x hx => hx⟩
  | cons r rest ih =>
    intro s
    cases r with
    | error =>
      simp only [fetch_merge_requests]
      split_ifs with h1
      · exact ⟨fun h => h, fun x hx => hx⟩
      · cases hs : _shift_window s with
        | none => exact ⟨fun h => h, fun x hx => hx⟩
        | some s2 =>
          obtain ⟨ha, hn⟩ := shift_window_preserves_records s s2 hs
          refine ⟨fun h => (ih s2).1 (seen_inv_fields s s2 ha hn h), ?_⟩
          intro x hx
          exact (ih s2).2 (hn ▸ hx)
    | page data np =>
      simp only [fetch_merge_requests]
      have hcp := consumePage_preserves limit bots data
        { s with emptyCount := 0 } false
      rcases hcpe : consumePage limit bots { s with emptyCount := 0 } false data
        with ⟨s2, newflag⟩
      rw [hcpe] at hcp
      simp only [hcpe]
      have hinv2 : SeenInv s → SeenInv s2 := hcp.1
      have hsub2 : s.seen ⊆ s2.seen := hcp.2
      split_ifs with h1 hd hflag
      · exact ⟨fun h => h, fun x hx => hx⟩
      · cases hs : _shift_window { s with emptyCount := s.emptyCount + 1 } with
        | none => exact ⟨fun h => h, fun x hx => hx⟩
        | some s2e =>
          obtain ⟨ha, hn⟩ := shift_window_preserves_records _ s2e hs
          refine ⟨fun h => (ih s2e).1 (seen_inv_fields _ s2e ha hn h), ?_⟩
          intro x hx
          exact (ih s2e).2 (hn ▸ hx)
      · cases np with
        | some p =>
          refine ⟨fun h => (ih _).1 (seen_inv_fields s2 _ rfl rfl (hinv2 h)), ?_⟩
          intro x hx
          exact (ih _).2 (hsub2 hx)
        | none =>
          cases hs : _shift_window s2 with
          | none => exact ⟨hinv2, hsub2⟩
          | some s3 =>
            obtain ⟨ha, hn⟩ := shift_window_preserves_records s2 s3 hs
            refine ⟨fun h => (ih s3).1 (seen_inv_fields s2 s3 ha hn (hinv2 h)),
              ?_⟩
            intro x hx
            exact (ih s3).2 (hn ▸ hsub2 hx)
      · cases hs : _shift_window s2 with
        | none => exact ⟨hinv2, hsub2⟩
        | some s3 =>
          obtain ⟨ha, hn⟩ := shift_window_preserves_records s2 s3 hs
          refine ⟨fun h => (ih s3).1 (seen_inv_fields s2 s3 ha hn (hinv2 h)), ?_⟩
          intro x hx
          exact (ih s3).2 (hn ▸ hsub2 hx)

/-- Claim C1: whatever sequence of listing pages is consumed (including
replays of overlapping date windows), the returned record list never
contains two entries with the same iid, and the seen-iid set only grows
during the run. -/
theorem fetch_no_duplicate_iids :
    (∀ (limit : Nat) (bots : List String) (rs : List ListResponse),
      ((fetch_merge_requests limit bots initFetchState rs).all_mrs.map
        RawMR.iid).Nodup) ∧
    ∀ (limit : Nat) (bots : List String) (rs : List ListResponse) (s : FetchState),
      s.seen ⊆ (fetch_merge_requests limit bots s rs).seen := by
  constructor
  · intro limit bots rs
    exact ((fetch_preserves_inv limit bots rs initFetchState).1
      ⟨List.nodup_nil, by simp [initFetchState]⟩).1
  · intro limit bots rs s
    exact (fetch_preserves_inv limit bots rs s).2

/-- Counterexample to C9 as stated: one repository with a single record
whose detail task fetches diff stats `(5, 3)` successfully and then
raises while fetching comments.  Exactly one record's task raises, yet
the final record carries `additions = 5`, not the claimed zero —
`setdefault` only fills the keys the task had not already set. -/
theorem detail_failure_partial_counterexample :
    ((processRepository false "r" [⟨1, "t", none, none, none, none, none, none⟩]
        [⟨some (5, 3), none, some [], none⟩]).merge_requests.map
      fun m => m.additions) = [some 5] ∧ some (5 : Nat) ≠ some 0 := by
  exact ⟨rfl, by decide⟩

/-- Amended C9: when exactly one record's detail task raises and it
raises before any detail call completed, that record appears in the
repository's final record list filled by `setdefault` with safe defaults
(all-zero stats, empty lists, no Jira data, given the record was a fresh
listing record), every other record carries its own enrichment
unaffected, and the repository entry is still appended to the run's
results.  (In general, `setdefault` only fills the keys the failed task
had not set yet.) -/
theorem detail_failure_containment :
    ∀ (jira : Bool) (name : String) (pres posts : List MRRecord)
      (preP postP : List DetailPlan) (badMr : MRRecord) (failP : DetailPlan)
      (others : List (String × List MRRecord × List DetailPlan)),
      pres.length = preP.length → posts.length = postP.length →
      (∀ x ∈ pres.zip preP, (_fetch_mr_details jira x.1 x.2).2 = false) →
      (∀ x ∈ posts.zip postP, (_fetch_mr_details jira x.1 x.2).2 = false) →
      failP.diff = none →
      (processRepository jira name (pres ++ badMr :: posts)
          (preP ++ failP :: postP) =
        ⟨name,
          (pres.zip preP).map (fun x => (_fetch_mr_details jira x.1 x.2).1) ++
            detailFailureDefaults badMr ::
              (posts.zip postP).map
                (fun x => (_fetch_mr_details jira x.1 x.2).1)⟩) ∧
      (unenriched badMr →
        detailFailureDefaults badMr =
          ⟨badMr.iid, badMr.title, some 0, some 0, some [], some [],
            some none, some none⟩) ∧
      runRepositories jira
          (others ++ [(name, pres ++ badMr :: posts, preP ++ failP :: postP)]) =
        runRepositories jira others ++
          [processRepository jira name (pres ++ badMr :: posts)
            (preP ++ failP :: postP)] := by
  intro jira name pres posts preP postP badMr failP others hlen1 hlen2 hpre hpost
    hfail
  have hbad : _fetch_mr_details jira badMr failP = (badMr, true) := by
    unfold _fetch_mr_details
    rw [hfail]
  refine ⟨?_, ?_, ?_⟩
  · unfold processRepository
    rw [List.zip_append hlen1, List.zip_cons_cons, List.map_append, List.map_cons]
    congr 1
    congr 1
    · refine List.map_congr_left fun x hx => ?_
      simp [hpre x hx]
    · congr 1
      · show (let r := _fetch_mr_details jira badMr failP
          if r.2 = true then detailFailureDefaults r.1 else r.1) =
          detailFailureDefaults badMr
        rw [hbad]
        rfl
      · refine List.map_congr_left fun x hx => ?_
        simp [hpost x hx]
  · rintro ⟨h1, h2, h3, h4, h5, h6⟩
    simp [detailFailureDefaults, h1, h2, h3, h4, h5, h6]
  · unfold runRepositories
    rw [List.map_append]
    rfl

/-- Witness for the amended C9: a two-record repository whose first
record's task raises at the diff-stats call. -/
theorem detail_failure_containment_witness :
    processRepository false "repo"
        [⟨1, "a", none, none, none, none, none, none⟩,
         ⟨2, "b", none, none, none, none, none, none⟩]
        [⟨none, none, none, none⟩, ⟨some (4, 2), some [], some [], none⟩] =
      ⟨"repo",
        detailFailureDefaults ⟨1, "a", none, none, none, none, none, none⟩ ::
          [(_fetch_mr_details false ⟨2, "b", none, none, none, none, none, none⟩
            ⟨some (4, 2), some [], some [], none⟩).1]⟩ ∧
    detailFailureDefaults (⟨1, "a", none, none, none, none, none, none⟩ : MRRecord) =
      ⟨1, "a", some 0, some 0, some [], some [], some none, some none⟩ := by
  have h := detail_failure_containment false "repo" []
    [⟨2, "b", none, none, none, none, none, none⟩] []
    [⟨some (4, 2), some [], some [], none⟩]
    ⟨1, "a", none, none, none, none, none, none⟩ ⟨none, none, none, none⟩ []
    rfl rfl (by simp) (by decide) rfl
  exact ⟨h.1, h.2.1 ⟨rfl, rfl, rfl, rfl, rfl, rfl⟩⟩

end GlabStats
